import Mathlib

/-!
Verification of the geometry-editing and clipping engine of the
`webgpu-globe` application (`src/app.js`).

The JavaScript source is shallowly embedded: flat `Float32` position buffers
become lists of 3-component vectors, flat index buffers become lists of
index triples, and the mutable per-mesh state (`mesh.geometry`,
`this.originalGeometries[mesh.uuid]`) becomes an explicit `LayerState`
record threaded through step functions.  Arithmetic is carried out over an
arbitrary linearly ordered field (instantiated at `ℚ` for concrete
witnesses and at `ℝ` where the source uses `sqrt`/trigonometry).
-/

namespace WebgpuGlobe

/-- A 3-component vector, modelling `THREE.Vector3` / one triple of a flat
position buffer. -/
@[ext]
structure Vec3 (α : Type) where
  x : α
  y : α
  z : α
deriving DecidableEq

/-- The zero vector, `new THREE.Vector3()`. -/
def vzero3 {α : Type} [LinearOrderedField α] : Vec3 α := ⟨0, 0, 0⟩

/-- Componentwise sum, `THREE.Vector3.add`. -/
def vadd {α : Type} [LinearOrderedField α] (a b : Vec3 α) : Vec3 α :=
  ⟨a.x + b.x, a.y + b.y, a.z + b.z⟩

/-- Componentwise difference, `THREE.Vector3.sub` (`p1.clone().sub(p0)`). -/
def vsub {α : Type} [LinearOrderedField α] (a b : Vec3 α) : Vec3 α :=
  ⟨a.x - b.x, a.y - b.y, a.z - b.z⟩

/-- Scalar multiple, `THREE.Vector3.multiplyScalar`. -/
def vsmul {α : Type} [LinearOrderedField α] (c : α) (a : Vec3 α) : Vec3 α :=
  ⟨c * a.x, c * a.y, c * a.z⟩

/-- Dot product, `THREE.Vector3.dot`. -/
def vdot {α : Type} [LinearOrderedField α] (a b : Vec3 α) : α :=
  a.x * b.x + a.y * b.y + a.z * b.z

/-- Cross product, `THREE.Vector3.cross` (`v1.clone().cross(v2)`). -/
def vcross {α : Type} [LinearOrderedField α] (a b : Vec3 α) : Vec3 α :=
  ⟨a.y * b.z - a.z * b.y, a.z * b.x - a.x * b.z, a.x * b.y - a.y * b.x⟩

/-- A clipping plane `{ normal, d }` as produced by
`calculateClippingPlane`: the set of points with `normal·P + d = 0`. -/
structure Plane (α : Type) where
  normal : Vec3 α
  d : α
deriving DecidableEq

/-- The clip direction select control, `this.clippingDirection`
(`'inside'` or `'outside'`). -/
inductive ClipDir where
  | inside
  | outside
deriving DecidableEq

/-- One triangle of an index buffer: three vertex indices. -/
abbrev Tri := Nat × Nat × Nat

/-- A `THREE.BufferGeometry`: an ordered vertex-position buffer and an
optional index buffer (`geometry.index ? geometry.index.array : null`),
grouped in triples. -/
structure Geometry (α : Type) where
  verts : List (Vec3 α)
  index : Option (List Tri)
deriving DecidableEq

/-- Vertex count of a geometry (`positions.length / 3`). -/
def vertexCount {α : Type} (g : Geometry α) : Nat := g.verts.length

/-- Triangle count of a geometry: indexed geometries have one triangle per
index triple, non-indexed geometries take every three consecutive vertices
as a triangle. -/
def triangleCount {α : Type} (g : Geometry α) : Nat :=
  match g.index with
  | some tris => tris.length
  | none => g.verts.length / 3

/-- Visibility test of one vertex in `applyGeometryClipping`:
`distance = clippingPlane.normal.dot(vertex) + clippingPlane.d` and
`shouldShow = direction === 'outside' ? distance > 0 : distance < 0`. -/
def visibleB {α : Type} [LinearOrderedField α] (p : Plane α) (dir : ClipDir) (v : Vec3 α) :
    Bool :=
  let distance := vdot p.normal v + p.d
  match dir with
  | ClipDir.outside => decide (distance > 0)
  | ClipDir.inside => decide (distance < 0)

/-- The single compaction loop of `applyGeometryClipping`: walks the vertex
buffer together with the visibility flags, pushing visible vertices onto
`newPositions` and recording `vertexMap.set(i/3, newVertexIndex++)` for each
of them.  The counter `k` is the running `newVertexIndex`; the second
component has one entry per old index (`none` for invisible vertices). -/
def compactLoop {α : Type} [LinearOrderedField α] :
    List (Vec3 α) → List Bool → Nat → List (Vec3 α) × List (Option Nat)
  | v :: vs, b :: bs, k =>
    let rest := compactLoop vs bs (if b then k + 1 else k)
    if b then (v :: rest.1, some k :: rest.2) else (rest.1, none :: rest.2)
  | _, _, _ => ([], [])

/-- Lookup in the visibility array: `vertexVisibility[i]`; an out-of-range
index reads as not visible (JavaScript `undefined` is falsy). -/
def visAt (vis : List Bool) (i : Nat) : Bool := vis.getD i false

/-- Lookup in the old-index→new-index map: `vertexMap.get(i)`; only queried
for visible indices, where the entry is present. -/
def mapAt (m : List (Option Nat)) (i : Nat) : Nat := (m.getD i none).getD 0

/-- The triangle rebuild loop of `applyGeometryClipping`: keeps exactly the
triangles whose three vertices are all visible, remapping each index
through the old-index→new-index map. -/
def compactTriangles (vis : List Bool) (m : List (Option Nat)) (tris : List Tri) : List Tri :=
  tris.filterMap fun t =>
    if visAt vis t.1 && visAt vis t.2.1 && visAt vis t.2.2 then
      some (mapAt m t.1, mapAt m t.2.1, mapAt m t.2.2)
    else none

/-- `applyGeometryClipping(mesh, clippingPlane)` acting on a geometry: test
every vertex against the plane, compact the vertex buffer to the visible
vertices, rebuild the index buffer from the all-visible triangles, and
install the index only when non-empty (`if (newIndices.length > 0)
newGeometry.setIndex(newIndices)`). -/
def applyGeometryClipping {α : Type} [LinearOrderedField α]
    (g : Geometry α) (p : Plane α) (dir : ClipDir) : Geometry α :=
  let vis := g.verts.map (visibleB p dir)
  let compact := compactLoop g.verts vis 0
  let newIndices :=
    match g.index with
    | some tris => compactTriangles vis compact.2 tris
    | none => []
  { verts := compact.1
    index := if newIndices ≠ [] then some newIndices else none }

/-- Per-layer destructive-clipping state: the mesh's current geometry
(`mesh.geometry`) and the retained pristine snapshot
(`this.originalGeometries[mesh.uuid]`, absent before the first clip). -/
structure LayerState (α : Type) where
  geometry : Geometry α
  original : Option (Geometry α)
deriving DecidableEq

/-- One geometry-clipping application to a layer: store the original
geometry if not already stored, then rebuild the current geometry from the
stored original (never from the previously clipped mesh). -/
def clipStep {α : Type} [LinearOrderedField α]
    (p : Plane α) (dir : ClipDir) (s : LayerState α) : LayerState α :=
  let original := s.original.getD s.geometry
  { geometry := applyGeometryClipping original p dir
    original := some original }

/-- `restoreOriginalGeometry` (WebGPU branch) acting on a layer: if a
pristine snapshot exists, replace the current geometry with a copy of it;
the snapshot itself is kept.  Without a snapshot nothing happens. -/
def restoreStep {α : Type} (s : LayerState α) : LayerState α :=
  match s.original with
  | some g => { geometry := g, original := some g }
  | none => s

/-- A sculpting edit (`editTerrain`) mutates the mesh's current geometry in
place; the pristine snapshot is a separate clone and is not touched. -/
def sculptStep {α : Type} (f : Geometry α → Geometry α) (s : LayerState α) : LayerState α :=
  { s with geometry := f s.geometry }

/-- The visibility classification in the specification's words: a vertex is
visible iff its signed distance `normal·v + offset` is positive (outside
mode) or negative (inside mode). -/
def SpecVisible {α : Type} [LinearOrderedField α]
    (p : Plane α) (dir : ClipDir) (v : Vec3 α) : Prop :=
  match dir with
  | ClipDir.outside => vdot p.normal v + p.d > 0
  | ClipDir.inside => vdot p.normal v + p.d < 0

instance {α : Type} [LinearOrderedField α] (p : Plane α) (dir : ClipDir) (v : Vec3 α) :
    Decidable (SpecVisible p dir v) :=
  match dir with
  | ClipDir.outside => inferInstanceAs (Decidable (vdot p.normal v + p.d > 0))
  | ClipDir.inside => inferInstanceAs (Decidable (vdot p.normal v + p.d < 0))

/-- The specification's old-index→new-index map: a visible vertex at old
index `i` moves to the position given by the number of visible vertices
strictly before it. -/
def newIndexAt {α : Type} [LinearOrderedField α]
    (g : Geometry α) (p : Plane α) (dir : ClipDir) (i : Nat) : Nat :=
  ((g.verts.take i).filter fun v => decide (SpecVisible p dir v)).length

/-- The triangle list of a geometry, reading a missing index buffer as
empty. -/
def indexList {α : Type} (g : Geometry α) : List Tri := g.index.getD []

/-! Real-valued vector helpers, for the parts of the source that use
`length()`/`normalize()` and trigonometry. -/

/-- Euclidean length, `THREE.Vector3.length()`:
`sqrt(x*x + y*y + z*z)`. -/
noncomputable def norm3 (v : Vec3 ℝ) : ℝ :=
  Real.sqrt (v.x * v.x + v.y * v.y + v.z * v.z)

/-- `THREE.Vector3.normalize()`: `divideScalar(this.length() || 1)`, i.e.
multiplication by the reciprocal of the length, with a zero length replaced
by `1` (so the zero vector normalizes to itself). -/
noncomputable def threeNormalize (v : Vec3 ℝ) : Vec3 ℝ :=
  let len := norm3 v
  vsmul (1 / (if len = 0 then 1 else len)) v

/-- `calculateClippingPlane()`: `null` when the polygon has fewer than three
points; otherwise the normalized cross product of the two edge vectors from
the first point, with offset `d = -normal.dot(p0)`. -/
noncomputable def calculateClippingPlane (poly : List (Vec3 ℝ)) : Option (Plane ℝ) :=
  match poly with
  | p0 :: p1 :: p2 :: _ =>
    let v1 := vsub p1 p0
    let v2 := vsub p2 p0
    let normal := threeNormalize (vcross v1 v2)
    let d := -(vdot normal p0)
    some { normal := normal, d := d }
  | _ => none

/-- The brush mode buttons: extrude pushes outward, compress inward. -/
inductive BrushMode where
  | extrude
  | compress
deriving DecidableEq

/-- The per-vertex displacement of `editTerrain()`: for a vertex within
`brushSize` of the (local-space) hit point, smoothstep falloff
`influence = 1 - (3t² - 2t³)` with `t = distance/brushSize`, displacement
`intensity * influence` along the vertex's own normalized direction,
outward for extrude and inward (negated) for compress.  Vertices outside
the brush radius are unchanged. -/
noncomputable def editVertex (localPoint : Vec3 ℝ) (brushSize intensity : ℝ)
    (mode : BrushMode) (v : Vec3 ℝ) : Vec3 ℝ :=
  let distance := norm3 (vsub v localPoint)
  if distance < brushSize then
    let normalizedDistance := distance / brushSize
    let influence := 1 - (3 * normalizedDistance * normalizedDistance -
      2 * normalizedDistance * normalizedDistance * normalizedDistance)
    let normal := threeNormalize v
    let change := intensity * influence
    match mode with
    | BrushMode.extrude => vadd v (vsmul change normal)
    | BrushMode.compress => vadd v (vsmul (-change) normal)
  else v

/-- The write-back guard of `editTerrain()`: the vertex buffer is updated
only when some coordinate moves by more than `0.001`; otherwise the old
position is kept (and the vertex is not counted as changed). -/
noncomputable def editVertexApplied (localPoint : Vec3 ℝ) (brushSize intensity : ℝ)
    (mode : BrushMode) (v : Vec3 ℝ) : Vec3 ℝ :=
  let v2 := editVertex localPoint brushSize intensity mode v
  if 0.001 < |v2.x - v.x| ∨ 0.001 < |v2.y - v.y| ∨ 0.001 < |v2.z - v.z| then v2 else v

/-- The axis select controls (`polygonAxis`, `polygonRotationAxis`). -/
inductive Axis where
  | x
  | y
  | z
deriving DecidableEq

/-- Rotation of a point about a coordinate axis by an angle in degrees:
`makeRotationX/Y/Z((deg * Math.PI) / 180)` applied by
`point.applyMatrix4`. -/
noncomputable def rotatePoint (axis : Axis) (deg : ℝ) (p : Vec3 ℝ) : Vec3 ℝ :=
  let r := deg * Real.pi / 180
  let c := Real.cos r
  let s := Real.sin r
  match axis with
  | Axis.x => ⟨p.x, c * p.y - s * p.z, s * p.y + c * p.z⟩
  | Axis.y => ⟨c * p.x + s * p.z, p.y, -s * p.x + c * p.z⟩
  | Axis.z => ⟨c * p.x - s * p.y, s * p.x + c * p.y, p.z⟩

/-- Translation of a point along a single coordinate axis
(`point.x += polygonPosition` etc.). -/
def translatePoint (axis : Axis) (t : ℝ) (p : Vec3 ℝ) : Vec3 ℝ :=
  match axis with
  | Axis.x => ⟨p.x + t, p.y, p.z⟩
  | Axis.y => ⟨p.x, p.y + t, p.z⟩
  | Axis.z => ⟨p.x, p.y, p.z + t⟩

/-- The per-point body of `updatePolygonTransform()`: reset to the original
point, apply the rotation matrix (built unconditionally), then apply the
position offset only when `polygonPosition !== 0`. -/
noncomputable def transformWorkingPoint (raxis : Axis) (rdeg : ℝ) (taxis : Axis) (tpos : ℝ)
    (op : Vec3 ℝ) : Vec3 ℝ :=
  let p := rotatePoint raxis rdeg op
  if tpos ≠ 0 then translatePoint taxis tpos p else p

/-- The per-point body of `updatePolygonPosition()`: reset to the original
point, apply rotation only when `polygonRotation !== 0`, then always add the
movement along the selected axis. -/
noncomputable def positionWorkingPoint (raxis : Axis) (rdeg : ℝ) (taxis : Axis) (tpos : ℝ)
    (op : Vec3 ℝ) : Vec3 ℝ :=
  let p := if rdeg ≠ 0 then rotatePoint raxis rdeg op else op
  translatePoint taxis tpos p

/-- `updatePolygonTransform()`: recompute every working point from the
immutable original point at the same index (`point.copy(originalPoint)`
first), never from the previous working value.  The iteration runs over the
working list's indices. -/
noncomputable def updatePolygonTransform (original working : List (Vec3 ℝ))
    (raxis : Axis) (rdeg : ℝ) (taxis : Axis) (tpos : ℝ) : List (Vec3 ℝ) :=
  (List.range working.length).map fun i =>
    transformWorkingPoint raxis rdeg taxis tpos (original.getD i vzero3)

/-- `updatePolygonPosition()`: recompute every working point from the
immutable original point at the same index. -/
noncomputable def updatePolygonPosition (original working : List (Vec3 ℝ))
    (raxis : Axis) (rdeg : ℝ) (taxis : Axis) (tpos : ℝ) : List (Vec3 ℝ) :=
  (List.range working.length).map fun i =>
    positionWorkingPoint raxis rdeg taxis tpos (original.getD i vzero3)

/-! Shader/material clipping strategy (the non-WebGPU branch). -/

/-- Material-level clip state: `mesh.material.clippingPlanes` (a missing
list reads as empty) and `mesh.material.clipIntersection`. -/
structure MaterialState where
  clippingPlanes : List (Plane ℝ)
  clipIntersection : Bool

/-- `applyMaterialClipping` (WebGL branch): builds a fresh `THREE.Plane`
and pushes it onto the material's clip-plane list
(`mesh.material.clippingPlanes.push(plane)`, or `= [plane]` when the list
was absent), then sets `clipIntersection` from the current direction. -/
def applyMaterialClipping (m : MaterialState) (p : Plane ℝ) (dir : ClipDir) : MaterialState :=
  { clippingPlanes := m.clippingPlanes ++ [p]
    clipIntersection := decide (dir = ClipDir.inside) }

/-- `updateMaterialClipping` (WebGL real-time branch): when a clip plane
already exists, update the first plane's normal and constant in place;
otherwise install a fresh single-plane list and set `clipIntersection`. -/
def updateMaterialClipping (m : MaterialState) (p : Plane ℝ) (dir : ClipDir) : MaterialState :=
  match m.clippingPlanes with
  | _ :: rest => { m with clippingPlanes := { normal := p.normal, d := p.d } :: rest }
  | [] =>
    { clippingPlanes := [p]
      clipIntersection := decide (dir = ClipDir.inside) }

/-- `applyWebGPUClipping` bookkeeping: each invocation pushes a new record
`{ normal, d, direction }` onto `this.clippingPlanes[mesh.uuid]`. -/
def applyWebGPUClippingRecords (records : List (Plane ℝ × ClipDir)) (p : Plane ℝ)
    (dir : ClipDir) : List (Plane ℝ × ClipDir) :=
  records ++ [(p, dir)]

/-! The layer manager (WebGPU geometry-partition path). -/

/-- The three shell layers. -/
inductive LayerName where
  | crust
  | mantle
  | core
deriving DecidableEq

/-- One shell layer: the mesh's visibility flag and its geometry-clipping
state. -/
structure Layer where
  visible : Bool
  state : LayerState ℝ

/-- The application state the clipping claims need: the three optional
layer meshes, the per-layer clip-enrollment checkboxes, the working
polygon, and the clip direction. -/
structure AppState where
  crust : Option Layer
  mantle : Option Layer
  core : Option Layer
  clipCrust : Bool
  clipMantle : Bool
  clipCore : Bool
  clippingPolygon : List (Vec3 ℝ)
  clippingDirection : ClipDir

/-- The `switch (targetLayer)` mesh lookup. -/
def getLayer (st : AppState) (l : LayerName) : Option Layer :=
  match l with
  | LayerName.crust => st.crust
  | LayerName.mantle => st.mantle
  | LayerName.core => st.core

/-- Writing back the selected layer's mutated mesh. -/
def setLayer (st : AppState) (l : LayerName) (layer : Layer) : AppState :=
  match l with
  | LayerName.crust => { st with crust := some layer }
  | LayerName.mantle => { st with mantle := some layer }
  | LayerName.core => { st with core := some layer }

/-- The `this.crust && this.crust.visible` guard. -/
def layerVisible (st : AppState) (l : LayerName) : Bool :=
  match getLayer st l with
  | some layer => layer.visible
  | none => false

/-- `restoreOriginalGeometry(targetLayer)` on the WebGPU path: restore the
selected layer's geometry from its pristine snapshot (a missing layer or a
missing snapshot leaves the state unchanged). -/
def restoreLayer (st : AppState) (l : LayerName) : AppState :=
  match getLayer st l with
  | none => st
  | some layer => setLayer st l { layer with state := restoreStep layer.state }

/-- `clipSphereWithPolygon(targetLayer)` on the WebGPU geometry path:
abort when the polygon has fewer than three points, when the layer is
missing, or when no plane can be computed; otherwise apply geometry
clipping with the current direction. -/
noncomputable def clipLayerWithPolygon (st : AppState) (l : LayerName) : AppState :=
  if st.clippingPolygon.length < 3 then st
  else
    match getLayer st l with
    | none => st
    | some layer =>
      match calculateClippingPlane st.clippingPolygon with
      | none => st
      | some plane =>
        setLayer st l { layer with state := clipStep plane st.clippingDirection layer.state }

/-- `reapplyClippingToAllLayers()`: first restore all three layers, then
re-apply clipping to each layer that exists and is visible.  The
enrollment checkboxes are not consulted. -/
noncomputable def reapplyClippingToAllLayers (st : AppState) : AppState :=
  let st1 := restoreLayer st LayerName.crust
  let st2 := restoreLayer st1 LayerName.mantle
  let st3 := restoreLayer st2 LayerName.core
  let st4 := if layerVisible st3 LayerName.crust then clipLayerWithPolygon st3 LayerName.crust
    else st3
  let st5 := if layerVisible st4 LayerName.mantle then clipLayerWithPolygon st4 LayerName.mantle
    else st4
  if layerVisible st5 LayerName.core then clipLayerWithPolygon st5 LayerName.core else st5

/-- The `clippingDirection` change listener: store the new direction, then
`reapplyClippingToAllLayers()`. -/
noncomputable def onClippingDirectionChange (st : AppState) (v : ClipDir) : AppState :=
  reapplyClippingToAllLayers { st with clippingDirection := v }

/-- What the direction-change handler does to one layer: restore it, and
when it is visible and a plane is available, clip it again from the
restored state with the new direction.  Enrollment plays no part. -/
noncomputable def directionChangeLayerResult (st : AppState) (v : ClipDir) (layer : Layer) :
    Layer :=
  let restored : Layer := { layer with state := restoreStep layer.state }
  if layer.visible then
    match calculateClippingPlane st.clippingPolygon with
    | some plane => { restored with state := clipStep plane v restored.state }
    | none => restored
  else restored

/-! Resolution (segment-count) handling. -/

/-- The current sphere resolution, `this.currentSegments`. -/
structure Segments where
  width : Int
  height : Int
deriving DecidableEq

/-- JavaScript `parseInt(input.value) || default`: a failed parse (`none`,
for `NaN`) and a parsed `0` both fall back to the default. -/
def jsOrInt (v : Option Int) (dflt : Int) : Int :=
  match v with
  | none => dflt
  | some n => if n = 0 then dflt else n

/-- Clamping of one segment value into `[8, 1024]`:
`Math.max(8, Math.min(1024, value))`. -/
def clampSeg (n : Int) : Int := max 8 (min 1024 n)

/-- `readInitialSegments()`: parse the two inputs with defaults `256`/`128`
and clamp each into `[8, 1024]`. -/
def readInitialSegments (w h : Option Int) : Segments :=
  ⟨clampSeg (jsOrInt w 256), clampSeg (jsOrInt h 128)⟩

/-- `updateSegmentsIfValid()`: parse both inputs; only when both are truthy
and both lie within `[8, 1024]` are the current segments replaced (and the
terrain regenerated); any other input leaves the segments untouched. -/
def updateSegmentsIfValid (cur : Segments) (w h : Option Int) : Segments :=
  match w, h with
  | some cw, some ch =>
    if cw ≠ 0 ∧ ch ≠ 0 ∧ 8 ≤ cw ∧ cw ≤ 1024 ∧ 8 ≤ ch ∧ ch ≤ 1024 then ⟨cw, ch⟩ else cur
  | _, _ => cur

/-- Segment counts within the documented bounds. -/
def segInRange (s : Segments) : Prop :=
  8 ≤ s.width ∧ s.width ≤ 1024 ∧ 8 ≤ s.height ∧ s.height ≤ 1024

instance (s : Segments) : Decidable (segInRange s) :=
  inferInstanceAs (Decidable (_ ∧ _ ∧ _ ∧ _))

/-! Concrete sample data for instantiating the theorems. -/

/-- Sample triangle list: one triangle touching the clipped-away vertex,
one triangle among visible vertices only. -/
def trisQ : List Tri := [(0, 1, 2), (0, 1, 1)]

/-- Sample geometry over `ℚ`: two vertices above the plane `z = 0`, one
below. -/
def gQ : Geometry ℚ := ⟨[⟨0, 0, 1⟩, ⟨1, 0, 2⟩, ⟨0, 0, -1⟩], some trisQ⟩

/-- Sample clipping plane over `ℚ`: the plane `z = 0` with upward normal. -/
def pQ : Plane ℚ := ⟨⟨0, 0, 1⟩, 0⟩

/-- A layer that has never been clipped: no pristine snapshot yet. -/
def sQfresh : LayerState ℚ := ⟨gQ, none⟩

/-- A layer whose pristine snapshot is already held. -/
def sQheld : LayerState ℚ := ⟨gQ, some gQ⟩

/-- A sample sculpting edit (any function of the current geometry). -/
def sculptQ : Geometry ℚ → Geometry ℚ := fun _ => ⟨[], none⟩

/-- Sample original polygon points for the transform claims. -/
def origR : List (Vec3 ℝ) := [⟨1, 2, 3⟩]

/-- Sample working polygon points (deliberately different from the
originals, to show they are overwritten). -/
def workR : List (Vec3 ℝ) := [⟨9, 9, 9⟩]

/-- Sample geometry over `ℝ` with a single vertex below the plane
`z = 0`. -/
def g8 : Geometry ℝ := ⟨[⟨0, 0, -1⟩], none⟩

/-- A non-degenerate working polygon whose plane is `z = 0`. -/
def poly8 : List (Vec3 ℝ) := [⟨0, 0, 0⟩, ⟨1, 0, 0⟩, ⟨0, 1, 0⟩]

/-- Application state with one visible mantle layer that is NOT enrolled
for clipping (`clipMantle = false`). -/
def st8 : AppState :=
  ⟨none, some ⟨true, ⟨g8, none⟩⟩, none, false, false, false, poly8, ClipDir.inside⟩

/-- A working polygon whose first three points are collinear. -/
def polyC2 : List (Vec3 ℝ) := [⟨0, 0, 0⟩, ⟨1, 0, 0⟩, ⟨2, 0, 0⟩]

/-- Sample geometry over `ℝ` with a single vertex. -/
def gC2 : Geometry ℝ := ⟨[⟨0, 0, 1⟩], none⟩

/-- Application state with a visible crust layer and a degenerate
(collinear) working polygon. -/
def stC2 : AppState :=
  ⟨some ⟨true, ⟨gC2, none⟩⟩, none, none, true, false, false, polyC2, ClipDir.outside⟩

/-- A material with no clip state yet. -/
def m0 : MaterialState := ⟨[], false⟩

/-- A sample clipping plane over `ℝ`. -/
def pR0 : Plane ℝ := ⟨⟨0, 0, 1⟩, 0⟩

/-! Helper lemmas about lists and the compaction loop. -/

lemma getD_map_lt {β γ : Type} (f : β → γ) (d : β) (c : γ) :
    ∀ (l : List β) (i : Nat), i < l.length → (l.map f).getD i c = f (l.getD i d) := by
  intro l
  induction l with
  | nil => intro i hi; simp at hi
  | cons a l ih =>
    intro i hi
    cases i with
    | zero => rfl
    | succ i =>
      simp only [List.map_cons, List.getD_cons_succ]
      exact ih i (by simpa using hi)

lemma filter_get?_count {β : Type} (f : β → Bool) (d : β) :
    ∀ (l : List β) (i : Nat), i < l.length → f (l.getD i d) = true →
      (l.filter f).get? ((l.take i).filter f).length = l.get? i := by
  intro l
  induction l with
  | nil => intro i hi; simp at hi
  | cons a l ih =>
    intro i hi hf
    cases i with
    | zero =>
      have ha : f a = true := by simpa using hf
      simp [List.filter_cons, ha]
    | succ i =>
      have hi' : i < l.length := by simpa using hi
      have hf' : f (l.getD i d) = true := by simpa using hf
      by_cases ha : f a = true
      · simpa [List.filter_cons, ha] using ih i hi' hf'
      · have ha' : f a = false := by simpa using ha
        simpa [List.filter_cons, ha'] using ih i hi' hf'

lemma filterMap_congr_mem {β γ : Type} (F G : β → Option γ) :
    ∀ (l : List β), (∀ x ∈ l, F x = G x) → l.filterMap F = l.filterMap G := by
  intro l
  induction l with
  | nil => intro _; rfl
  | cons a l ih =>
    intro h
    have ha := h a (by simp)
    have ht := ih fun x hx => h x (by simp [hx])
    simp only [List.filterMap_cons, ha, ht]

lemma range_map_getD {β : Type} (d : β) :
    ∀ l : List β, (List.range l.length).map (fun i => l.getD i d) = l := by
  intro l
  induction l with
  | nil => rfl
  | cons a l ih =>
    rw [List.length_cons, List.range_succ_eq_map]
    simp only [List.map_cons, List.map_map, List.getD_cons_zero]
    have hcomp : ((fun i => (a :: l).getD i d) ∘ Nat.succ) = fun i => l.getD i d := by
      funext i
      simp [List.getD_cons_succ]
    rw [hcomp, ih]

lemma compactLoop_fst {α : Type} [LinearOrderedField α] (f : Vec3 α → Bool) :
    ∀ (vs : List (Vec3 α)) (k : Nat), (compactLoop vs (vs.map f) k).1 = vs.filter f := by
  intro vs
  induction vs with
  | nil => intro k; rfl
  | cons v vs ih =>
    intro k
    by_cases hv : f v = true
    · simp [compactLoop, hv, List.filter_cons, ih]
    · have hv' : f v = false := by simpa using hv
      simp [compactLoop, hv', List.filter_cons, ih]

lemma compactLoop_snd_getD {α : Type} [LinearOrderedField α] (f : Vec3 α → Bool) :
    ∀ (vs : List (Vec3 α)) (k i : Nat), i < vs.length → f (vs.getD i vzero3) = true →
      ((compactLoop vs (vs.map f) k).2).getD i none
        = some (k + ((vs.take i).filter f).length) := by
  intro vs
  induction vs with
  | nil => intro k i hi; simp at hi
  | cons v vs ih =>
    intro k i hi hf
    cases i with
    | zero =>
      have hv : f v = true := by simpa using hf
      simp [compactLoop, hv]
    | succ i =>
      have hi' : i < vs.length := by simpa using hi
      have hf' : f (vs.getD i vzero3) = true := by simpa using hf
      by_cases hv : f v = true
      · rw [show ((v :: vs).take (i + 1)).filter f = (v :: vs.take i).filter f from rfl]
        simp only [List.map_cons, compactLoop, hv, if_true, List.getD_cons_succ,
          List.filter_cons, ite_true]
        rw [ih (k + 1) i hi' hf']
        simp only [List.length_cons]
        congr 1
        omega
      · have hv' : f v = false := by simpa using hv
        rw [show ((v :: vs).take (i + 1)).filter f = (v :: vs.take i).filter f from rfl]
        simp only [List.map_cons, compactLoop, hv', if_false, List.getD_cons_succ,
          List.filter_cons, ite_false, Bool.false_eq_true]
        rw [ih k i hi' hf']

lemma visibleB_eq_decide {α : Type} [LinearOrderedField α]
    (p : Plane α) (dir : ClipDir) (v : Vec3 α) :
    visibleB p dir v = decide (SpecVisible p dir v) := by
  cases dir <;> rfl

lemma ifNeNil_getD {γ : Type} [DecidableEq γ] (l : List γ) :
    (if l ≠ [] then some l else none).getD [] = l := by
  by_cases h : l = []
  · rw [if_neg (by simp [h])]
    rw [h]
    rfl
  · rw [if_pos h]
    rfl

/-- C1: geometry-partition clipping computes from the pristine snapshot and
matches the specification: vertices are classified by the sign of
`normal·v + offset` according to the direction, the new vertex buffer is
exactly the visible vertices in order under the old-index→new-index map,
and the new index buffer consists of the all-visible pristine triangles
with remapped indices. -/
theorem applyGeometryClipping_matchesSpec {α : Type} [LinearOrderedField α]
    (g : Geometry α) (p : Plane α) (dir : ClipDir) (tris : List Tri)
    (hidx : g.index = some tris)
    (hrange : ∀ t ∈ tris,
      t.1 < g.verts.length ∧ t.2.1 < g.verts.length ∧ t.2.2 < g.verts.length) :
    (∀ s : LayerState α, s.original = some g →
      (clipStep p dir s).geometry = applyGeometryClipping g p dir)
    ∧ (applyGeometryClipping g p dir).verts
        = g.verts.filter (fun v => decide (SpecVisible p dir v))
    ∧ (∀ i, i < g.verts.length → SpecVisible p dir (g.verts.getD i vzero3) →
        (applyGeometryClipping g p dir).verts.get? (newIndexAt g p dir i) = g.verts.get? i)
    ∧ indexList (applyGeometryClipping g p dir)
        = tris.filterMap (fun t =>
            if SpecVisible p dir (g.verts.getD t.1 vzero3)
                ∧ SpecVisible p dir (g.verts.getD t.2.1 vzero3)
                ∧ SpecVisible p dir (g.verts.getD t.2.2 vzero3)
            then some (newIndexAt g p dir t.1, newIndexAt g p dir t.2.1,
              newIndexAt g p dir t.2.2)
            else none) := by
  have hfe : visibleB p dir = fun v => decide (SpecVisible p dir v) :=
    funext (visibleB_eq_decide p dir)
  have hverts : (applyGeometryClipping g p dir).verts
      = g.verts.filter (fun v => decide (SpecVisible p dir v)) := by
    show (compactLoop g.verts (g.verts.map (visibleB p dir)) 0).1 = _
    rw [hfe]
    exact compactLoop_fst _ g.verts 0
  have hm : ∀ j, j < g.verts.length →
      decide (SpecVisible p dir (g.verts.getD j vzero3)) = true →
      mapAt (compactLoop g.verts
        (g.verts.map fun v => decide (SpecVisible p dir v)) 0).2 j = newIndexAt g p dir j := by
    intro j hj hfj
    rw [mapAt, compactLoop_snd_getD _ g.verts 0 j hj hfj]
    simp [newIndexAt]
  refine ⟨?_, hverts, ?_, ?_⟩
  · intro s hs
    simp [clipStep, hs]
  · intro i hi hvis
    rw [hverts, newIndexAt]
    exact filter_get?_count _ vzero3 g.verts i hi (decide_eq_true hvis)
  · have hIdxList : indexList (applyGeometryClipping g p dir)
        = compactTriangles (g.verts.map fun v => decide (SpecVisible p dir v))
            (compactLoop g.verts (g.verts.map fun v => decide (SpecVisible p dir v)) 0).2
            tris := by
      show (if _ ≠ ([] : List Tri) then _ else none).getD [] = _
      rw [hfe]
      simp only [hidx]
      exact ifNeNil_getD _
    rw [hIdxList, compactTriangles]
    apply filterMap_congr_mem
    intro t ht
    obtain ⟨ha, hb, hc⟩ := hrange t ht
    have hva : visAt (g.verts.map fun v => decide (SpecVisible p dir v)) t.1
        = decide (SpecVisible p dir (g.verts.getD t.1 vzero3)) :=
      getD_map_lt _ vzero3 false g.verts t.1 ha
    have hvb : visAt (g.verts.map fun v => decide (SpecVisible p dir v)) t.2.1
        = decide (SpecVisible p dir (g.verts.getD t.2.1 vzero3)) :=
      getD_map_lt _ vzero3 false g.verts t.2.1 hb
    have hvc : visAt (g.verts.map fun v => decide (SpecVisible p dir v)) t.2.2
        = decide (SpecVisible p dir (g.verts.getD t.2.2 vzero3)) :=
      getD_map_lt _ vzero3 false g.verts t.2.2 hc
    rw [hva, hvb, hvc]
    by_cases hA : SpecVisible p dir (g.verts.getD t.1 vzero3)
    · by_cases hB : SpecVisible p dir (g.verts.getD t.2.1 vzero3)
      · by_cases hC : SpecVisible p dir (g.verts.getD t.2.2 vzero3)
        · have hcond : (decide (SpecVisible p dir (g.verts.getD t.1 vzero3))
              && decide (SpecVisible p dir (g.verts.getD t.2.1 vzero3))
              && decide (SpecVisible p dir (g.verts.getD t.2.2 vzero3))) = true := by
            rw [decide_eq_true hA, decide_eq_true hB, decide_eq_true hC]
            rfl
          rw [if_pos hcond, if_pos ⟨hA, hB, hC⟩,
            hm t.1 ha (decide_eq_true hA), hm t.2.1 hb (decide_eq_true hB),
            hm t.2.2 hc (decide_eq_true hC)]
        · have hcond : (decide (SpecVisible p dir (g.verts.getD t.1 vzero3))
              && decide (SpecVisible p dir (g.verts.getD t.2.1 vzero3))
              && decide (SpecVisible p dir (g.verts.getD t.2.2 vzero3))) = false := by
            rw [decide_eq_false hC]
            simp
          rw [if_neg (by rw [hcond]; exact Bool.false_ne_true), if_neg (fun h => hC h.2.2)]
      · have hcond : (decide (SpecVisible p dir (g.verts.getD t.1 vzero3))
            && decide (SpecVisible p dir (g.verts.getD t.2.1 vzero3))
            && decide (SpecVisible p dir (g.verts.getD t.2.2 vzero3))) = false := by
          rw [decide_eq_false hB]
          simp
        rw [if_neg (by rw [hcond]; exact Bool.false_ne_true), if_neg (fun h => hB h.2.1)]
    · have hcond : (decide (SpecVisible p dir (g.verts.getD t.1 vzero3))
          && decide (SpecVisible p dir (g.verts.getD t.2.1 vzero3))
          && decide (SpecVisible p dir (g.verts.getD t.2.2 vzero3))) = false := by
        rw [decide_eq_false hA]
        simp
      rw [if_neg (by rw [hcond]; exact Bool.false_ne_true), if_neg (fun h => hA h.1)]

/-- Concrete instantiation of the C1 theorem, with every hypothesis
discharged on sample data. -/
theorem applyGeometryClipping_matchesSpec_instance :
    gQ.index = some trisQ
    ∧ (applyGeometryClipping gQ pQ ClipDir.outside).verts.get?
        (newIndexAt gQ pQ ClipDir.outside 1) = gQ.verts.get? 1
    ∧ indexList (applyGeometryClipping gQ pQ ClipDir.outside)
        = trisQ.filterMap (fun t =>
            if SpecVisible pQ ClipDir.outside (gQ.verts.getD t.1 vzero3)
                ∧ SpecVisible pQ ClipDir.outside (gQ.verts.getD t.2.1 vzero3)
                ∧ SpecVisible pQ ClipDir.outside (gQ.verts.getD t.2.2 vzero3)
            then some (newIndexAt gQ pQ ClipDir.outside t.1,
              newIndexAt gQ pQ ClipDir.outside t.2.1, newIndexAt gQ pQ ClipDir.outside t.2.2)
            else none) := by
  refine ⟨rfl, ?_, ?_⟩
  · exact (applyGeometryClipping_matchesSpec gQ pQ ClipDir.outside trisQ rfl
      (by decide)).2.2.1 1 (by decide)
      (by norm_num [SpecVisible, pQ, gQ, vdot, vzero3])
  · exact (applyGeometryClipping_matchesSpec gQ pQ ClipDir.outside trisQ rfl
      (by decide)).2.2.2

/-- C3: a geometry-clipping application followed by restoration installs
the pristine snapshot, so the vertex and triangle counts return exactly to
their values from before the first clip; for a layer with no snapshot yet
these are the pre-clip counts. -/
theorem clipRestore_roundTrip {α : Type} [LinearOrderedField α]
    (s : LayerState α) (p : Plane α) (dir : ClipDir) :
    (restoreStep (clipStep p dir s)).geometry = s.original.getD s.geometry
    ∧ (s.original = none →
        vertexCount (restoreStep (clipStep p dir s)).geometry = vertexCount s.geometry
        ∧ triangleCount (restoreStep (clipStep p dir s)).geometry = triangleCount s.geometry) := by
  have h1 : (restoreStep (clipStep p dir s)).geometry = s.original.getD s.geometry := rfl
  refine ⟨h1, fun h => ?_⟩
  have h2 : (restoreStep (clipStep p dir s)).geometry = s.geometry := by
    rw [h1, h]
    rfl
  exact ⟨by rw [h2], by rw [h2]⟩

/-- Concrete instantiation of the C3 theorem on a fresh layer. -/
theorem clipRestore_roundTrip_instance :
    sQfresh.original = none
    ∧ vertexCount (restoreStep (clipStep pQ ClipDir.outside sQfresh)).geometry
        = vertexCount sQfresh.geometry
    ∧ triangleCount (restoreStep (clipStep pQ ClipDir.outside sQfresh)).geometry
        = triangleCount sQfresh.geometry := by
  refine ⟨rfl, ?_, ?_⟩
  · exact ((clipRestore_roundTrip sQfresh pQ ClipDir.outside).2 rfl).1
  · exact ((clipRestore_roundTrip sQfresh pQ ClipDir.outside).2 rfl).2

/-- C4: clip, restore, clip again with the same plane and direction gives
literally the same layer state as the first clip — in particular the same
vertex and triangle counts as clipping the pristine mesh once. -/
theorem clipRestoreClip_idempotent {α : Type} [LinearOrderedField α]
    (s : LayerState α) (p : Plane α) (dir : ClipDir) :
    clipStep p dir (restoreStep (clipStep p dir s)) = clipStep p dir s
    ∧ vertexCount (clipStep p dir (restoreStep (clipStep p dir s))).geometry
        = vertexCount (applyGeometryClipping (s.original.getD s.geometry) p dir)
    ∧ triangleCount (clipStep p dir (restoreStep (clipStep p dir s))).geometry
        = triangleCount (applyGeometryClipping (s.original.getD s.geometry) p dir) :=
  ⟨rfl, rfl, rfl⟩

/-- C10: the pristine snapshot is captured on the first clip (from the
then-current geometry), later clips keep the stored snapshot, restoration
and sculpting never change it, and once a snapshot is held both clipping
and restoration ignore any sculpting edit made to the current mesh. -/
theorem pristineSnapshot_invariant {α : Type} [LinearOrderedField α]
    (s : LayerState α) (p : Plane α) (dir : ClipDir) (f : Geometry α → Geometry α) :
    (clipStep p dir s).original = some (s.original.getD s.geometry)
    ∧ (restoreStep s).original = s.original
    ∧ (sculptStep f s).original = s.original
    ∧ (∀ g0, s.original = some g0 →
        clipStep p dir (sculptStep f s) = clipStep p dir s
        ∧ restoreStep (sculptStep f s) = restoreStep s) := by
  refine ⟨rfl, ?_, rfl, ?_⟩
  · cases h : s.original <;> simp [restoreStep, h]
  · intro g0 h
    constructor
    · simp [clipStep, sculptStep, h]
    · simp [restoreStep, sculptStep, h]

/-- Concrete instantiation of the C10 theorem: a sculpting edit made after
the snapshot was captured is discarded by the next clip and by the next
restore. -/
theorem pristineSnapshot_invariant_instance :
    sQheld.original = some gQ
    ∧ clipStep pQ ClipDir.outside (sculptStep sculptQ sQheld)
        = clipStep pQ ClipDir.outside sQheld
    ∧ restoreStep (sculptStep sculptQ sQheld) = restoreStep sQheld := by
  refine ⟨rfl, ?_, ?_⟩
  · exact ((pristineSnapshot_invariant sQheld pQ ClipDir.outside sculptQ).2.2.2 gQ rfl).1
  · exact ((pristineSnapshot_invariant sQheld pQ ClipDir.outside sculptQ).2.2.2 gQ rfl).2

/-! Lemmas about real-valued vectors and the polygon transforms. -/

lemma rotatePoint_deg_zero (ax : Axis) (p : Vec3 ℝ) : rotatePoint ax 0 p = p := by
  have h0 : (0 : ℝ) * Real.pi / 180 = 0 := by ring
  cases ax <;> ext <;> simp [rotatePoint, h0]

lemma translatePoint_zero (ax : Axis) (p : Vec3 ℝ) : translatePoint ax 0 p = p := by
  cases ax <;> ext <;> simp [translatePoint]

lemma norm3_nonneg (v : Vec3 ℝ) : 0 ≤ norm3 v := Real.sqrt_nonneg _

lemma norm3_eq_zero_iff (v : Vec3 ℝ) : norm3 v = 0 ↔ v = vzero3 := by
  unfold norm3
  constructor
  · intro h
    have h' : v.x * v.x + v.y * v.y + v.z * v.z ≤ 0 := Real.sqrt_eq_zero'.mp h
    have hx : v.x = 0 := by nlinarith [sq_nonneg v.x, sq_nonneg v.y, sq_nonneg v.z]
    have hy : v.y = 0 := by nlinarith [sq_nonneg v.x, sq_nonneg v.y, sq_nonneg v.z]
    have hz : v.z = 0 := by nlinarith [sq_nonneg v.x, sq_nonneg v.y, sq_nonneg v.z]
    ext <;> simp [vzero3, hx, hy, hz]
  · intro h
    rw [h]
    simp [vzero3]

lemma norm3_pos_of_ne (v : Vec3 ℝ) (h : v ≠ vzero3) : 0 < norm3 v :=
  lt_of_le_of_ne (norm3_nonneg v) (Ne.symm (fun h0 => h ((norm3_eq_zero_iff v).mp h0)))

lemma norm3_smul (a : ℝ) (v : Vec3 ℝ) : norm3 (vsmul a v) = |a| * norm3 v := by
  unfold norm3 vsmul
  rw [show (a * v.x) * (a * v.x) + (a * v.y) * (a * v.y) + (a * v.z) * (a * v.z)
      = a ^ 2 * (v.x * v.x + v.y * v.y + v.z * v.z) by ring]
  rw [Real.sqrt_mul (sq_nonneg a), Real.sqrt_sq_eq_abs]

/-- C5: with rotation 0° and translation 0 the recomputed working polygon
equals the original point set exactly, for any axis choice and for both
recompute entry points; and recomputing again with the same parameters
changes nothing, because the recompute always starts from the immutable
original set. -/
theorem polygonRecompute_fromOriginal (original working : List (Vec3 ℝ))
    (rax tax : Axis) (deg tpos : ℝ) (hlen : working.length = original.length) :
    updatePolygonPosition original working rax 0 tax 0 = original
    ∧ updatePolygonTransform original working rax 0 tax 0 = original
    ∧ updatePolygonTransform original (updatePolygonTransform original working rax deg tax tpos)
        rax deg tax tpos
      = updatePolygonTransform original working rax deg tax tpos
    ∧ updatePolygonPosition original (updatePolygonPosition original working rax deg tax tpos)
        rax deg tax tpos
      = updatePolygonPosition original working rax deg tax tpos := by
  have hzp : ∀ op : Vec3 ℝ, positionWorkingPoint rax 0 tax 0 op = op := by
    intro op
    simp [positionWorkingPoint, translatePoint_zero]
  have hzt : ∀ op : Vec3 ℝ, transformWorkingPoint rax 0 tax 0 op = op := by
    intro op
    simp [transformWorkingPoint, rotatePoint_deg_zero]
  refine ⟨?_, ?_, ?_, ?_⟩
  · unfold updatePolygonPosition
    rw [hlen]
    calc (List.range original.length).map
          (fun i => positionWorkingPoint rax 0 tax 0 (original.getD i vzero3))
        = (List.range original.length).map (fun i => original.getD i vzero3) := by
          simp only [hzp]
      _ = original := range_map_getD vzero3 original
  · unfold updatePolygonTransform
    rw [hlen]
    calc (List.range original.length).map
          (fun i => transformWorkingPoint rax 0 tax 0 (original.getD i vzero3))
        = (List.range original.length).map (fun i => original.getD i vzero3) := by
          simp only [hzt]
      _ = original := range_map_getD vzero3 original
  · simp only [updatePolygonTransform]
    rw [List.length_map, List.length_range]
  · simp only [updatePolygonPosition]
    rw [List.length_map, List.length_range]

/-- Concrete instantiation of the C5 theorem: the working points are
overwritten from the originals, exactly, and repetition accumulates
nothing. -/
theorem polygonRecompute_fromOriginal_instance :
    workR.length = origR.length
    ∧ updatePolygonPosition origR workR Axis.x 0 Axis.y 0 = origR
    ∧ updatePolygonTransform origR workR Axis.x 0 Axis.y 0 = origR
    ∧ updatePolygonTransform origR (updatePolygonTransform origR workR Axis.x 30 Axis.y 5)
        Axis.x 30 Axis.y 5
      = updatePolygonTransform origR workR Axis.x 30 Axis.y 5 := by
  refine ⟨rfl, ?_, ?_, ?_⟩
  · exact (polygonRecompute_fromOriginal origR workR Axis.x Axis.y 30 5 rfl).1
  · exact (polygonRecompute_fromOriginal origR workR Axis.x Axis.y 30 5 rfl).2.1
  · exact (polygonRecompute_fromOriginal origR workR Axis.x Axis.y 30 5 rfl).2.2.1

/-- C6: for a brush application with positive radius and strength in
extrude mode, every vertex the brush actually changes ends up strictly
farther from the sphere center than before the edit. -/
theorem extrudeBrush_increasesRadius (localPoint v : Vec3 ℝ) (brushSize intensity : ℝ)
    (hb : 0 < brushSize) (hi : 0 < intensity)
    (hch : editVertexApplied localPoint brushSize intensity BrushMode.extrude v ≠ v) :
    norm3 v < norm3 (editVertexApplied localPoint brushSize intensity BrushMode.extrude v) := by
  by_cases hcond : 0.001 < |(editVertex localPoint brushSize intensity BrushMode.extrude v).x - v.x|
      ∨ 0.001 < |(editVertex localPoint brushSize intensity BrushMode.extrude v).y - v.y|
      ∨ 0.001 < |(editVertex localPoint brushSize intensity BrushMode.extrude v).z - v.z|
  case neg =>
    exact absurd (if_neg hcond) hch
  case pos =>
  have happ : editVertexApplied localPoint brushSize intensity BrushMode.extrude v
      = editVertex localPoint brushSize intensity BrushMode.extrude v := if_pos hcond
  rw [happ] at hch ⊢
  by_cases hd : norm3 (vsub v localPoint) < brushSize
  case neg =>
    exact absurd (if_neg hd) hch
  case pos =>
  have hvne : v ≠ vzero3 := by
    intro hv
    apply hch
    rw [editVertex, if_pos hd, hv]
    have hn0 : threeNormalize vzero3 = vzero3 := by
      unfold threeNormalize
      ext <;> simp [vzero3, vsmul]
    rw [hn0]
    ext <;> simp [vzero3, vadd, vsmul]
  have hn : 0 < norm3 v := norm3_pos_of_ne v hvne
  have ht0 : 0 ≤ norm3 (vsub v localPoint) / brushSize :=
    div_nonneg (norm3_nonneg _) (le_of_lt hb)
  have ht1 : norm3 (vsub v localPoint) / brushSize < 1 := (div_lt_one hb).mpr hd
  have hinf : 0 < 1 - (3 * (norm3 (vsub v localPoint) / brushSize)
      * (norm3 (vsub v localPoint) / brushSize)
      - 2 * (norm3 (vsub v localPoint) / brushSize) * (norm3 (vsub v localPoint) / brushSize)
      * (norm3 (vsub v localPoint) / brushSize)) := by
    have h1t : (0 : ℝ) < 1 - norm3 (vsub v localPoint) / brushSize := by linarith
    have h2t : (0 : ℝ) < 1 + 2 * (norm3 (vsub v localPoint) / brushSize) := by linarith
    nlinarith [mul_pos (mul_pos h1t h1t) h2t]
  have hchangePos : 0 < intensity * (1 - (3 * (norm3 (vsub v localPoint) / brushSize)
      * (norm3 (vsub v localPoint) / brushSize)
      - 2 * (norm3 (vsub v localPoint) / brushSize) * (norm3 (vsub v localPoint) / brushSize)
      * (norm3 (vsub v localPoint) / brushSize))) := mul_pos hi hinf
  have hnorm : threeNormalize v = vsmul (1 / norm3 v) v := by
    simp only [threeNormalize, ne_of_gt hn, if_false]
  have hw : editVertex localPoint brushSize intensity BrushMode.extrude v
      = vsmul (1 + intensity * (1 - (3 * (norm3 (vsub v localPoint) / brushSize)
          * (norm3 (vsub v localPoint) / brushSize)
          - 2 * (norm3 (vsub v localPoint) / brushSize) * (norm3 (vsub v localPoint) / brushSize)
          * (norm3 (vsub v localPoint) / brushSize))) / norm3 v) v := by
    rw [editVertex, if_pos hd, hnorm]
    ext <;> simp [vadd, vsmul] <;> ring
  rw [hw, norm3_smul]
  have hfracPos : 0 < intensity * (1 - (3 * (norm3 (vsub v localPoint) / brushSize)
      * (norm3 (vsub v localPoint) / brushSize)
      - 2 * (norm3 (vsub v localPoint) / brushSize) * (norm3 (vsub v localPoint) / brushSize)
      * (norm3 (vsub v localPoint) / brushSize))) / norm3 v := div_pos hchangePos hn
  rw [abs_of_pos (by linarith)]
  nlinarith [hn, hfracPos]

lemma editVertexApplied_sample :
    editVertexApplied ⟨1, 0, 0⟩ 1 1 BrushMode.extrude ⟨1, 0, 0⟩ = (⟨2, 0, 0⟩ : Vec3 ℝ) := by
  have hd : norm3 (vsub (⟨1, 0, 0⟩ : Vec3 ℝ) ⟨1, 0, 0⟩) = 0 := by
    unfold norm3 vsub
    norm_num
  have hn1 : norm3 (⟨1, 0, 0⟩ : Vec3 ℝ) = 1 := by
    unfold norm3
    norm_num
  have hedit : editVertex ⟨1, 0, 0⟩ 1 1 BrushMode.extrude ⟨1, 0, 0⟩ = (⟨2, 0, 0⟩ : Vec3 ℝ) := by
    unfold editVertex
    rw [hd]
    rw [if_pos (by norm_num : (0 : ℝ) < 1)]
    simp only [threeNormalize, hn1]
    norm_num [vadd, vsmul]
  unfold editVertexApplied
  rw [hedit, if_pos]
  left
  norm_num

/-- Concrete instantiation of the C6 theorem: a vertex at the hit point
moves from distance 1 to distance 2 from the center. -/
theorem extrudeBrush_increasesRadius_instance :
    (0 : ℝ) < 1
    ∧ editVertexApplied ⟨1, 0, 0⟩ 1 1 BrushMode.extrude ⟨1, 0, 0⟩ ≠ (⟨1, 0, 0⟩ : Vec3 ℝ)
    ∧ norm3 (⟨1, 0, 0⟩ : Vec3 ℝ)
        < norm3 (editVertexApplied ⟨1, 0, 0⟩ 1 1 BrushMode.extrude ⟨1, 0, 0⟩) := by
  have hne : editVertexApplied ⟨1, 0, 0⟩ 1 1 BrushMode.extrude ⟨1, 0, 0⟩
      ≠ (⟨1, 0, 0⟩ : Vec3 ℝ) := by
    rw [editVertexApplied_sample]
    intro h
    exact absurd (congrArg Vec3.x h) (by norm_num)
  exact ⟨by norm_num, hne,
    extrudeBrush_increasesRadius ⟨1, 0, 0⟩ ⟨1, 0, 0⟩ 1 1 (by norm_num) (by norm_num) hne⟩

/-- C7 counterexample: under the WebGL direct-application path
(`applyMaterialClipping`) each re-application pushes a fresh plane, so after
two applications the material's clip-plane list holds two planes, not
exactly one. -/
theorem materialClipping_accumulates_cex :
    (applyMaterialClipping (applyMaterialClipping m0 pR0 ClipDir.inside) pR0
        ClipDir.inside).clippingPlanes.length = 2
    ∧ (2 : Nat) ≠ 1 :=
  ⟨rfl, by decide⟩

/-- C7 (amended): only the real-time update path
(`updateMaterialClipping`) replaces the existing clip plane in place,
keeping at most one plane (exactly one from the first application on) with
the newest normal and offset at the front; the direct application path
(`applyMaterialClipping`) appends a plane on every call, and the WebGPU
path appends a per-mesh clip record on every call, so repeated
applications through those paths accumulate state. -/
theorem materialClipping_updateReplaces_applyAppends (m : MaterialState) (p : Plane ℝ)
    (dir : ClipDir) (records : List (Plane ℝ × ClipDir)) :
    (updateMaterialClipping m p dir).clippingPlanes.length = max m.clippingPlanes.length 1
    ∧ (updateMaterialClipping m p dir).clippingPlanes.head? = some p
    ∧ (applyMaterialClipping m p dir).clippingPlanes.length = m.clippingPlanes.length + 1
    ∧ (applyWebGPUClippingRecords records p dir).length = records.length + 1 := by
  refine ⟨?_, ?_, ?_, ?_⟩
  · cases h : m.clippingPlanes with
    | nil => simp [updateMaterialClipping, h]
    | cons q rest => simp [updateMaterialClipping, h]
  · cases h : m.clippingPlanes with
    | nil => simp [updateMaterialClipping, h]
    | cons q rest => simp [updateMaterialClipping, h]
  · simp [applyMaterialClipping]
  · simp [applyWebGPUClippingRecords]

/-- C9 counterexample: an out-of-range live resolution update (width 2000)
is not clamped into `[8, 1024]`; the update is ignored and the previous
segments are kept. -/
theorem segmentsUpdate_noClamp_cex :
    updateSegmentsIfValid ⟨256, 128⟩ (some 2000) (some 100) = ⟨256, 128⟩
    ∧ updateSegmentsIfValid ⟨256, 128⟩ (some 2000) (some 100)
        ≠ ⟨clampSeg 2000, clampSeg 100⟩ := by
  constructor
  · decide
  · decide

/-- C9 (amended): the initial resolution read clamps each value into
`[8, 1024]`; the live update path instead ignores any invalid or
out-of-range input, leaving the current segments untouched — so segments
that start in range stay in range, and every accepted update (hence every
regeneration) uses segment counts within `[8, 1024]`. -/
theorem segments_clampOrIgnore (w h : Option Int) (cur : Segments) :
    segInRange (readInitialSegments w h)
    ∧ (segInRange cur → segInRange (updateSegmentsIfValid cur w h))
    ∧ (updateSegmentsIfValid cur w h = cur ∨ segInRange (updateSegmentsIfValid cur w h)) := by
  refine ⟨?_, ?_, ?_⟩
  · refine ⟨le_max_left _ _, max_le (by norm_num) (min_le_left _ _),
      le_max_left _ _, max_le (by norm_num) (min_le_left _ _)⟩
  · intro hc
    rcases w with _ | cw <;> rcases h with _ | ch
    · exact hc
    · exact hc
    · exact hc
    · show segInRange (if cw ≠ 0 ∧ ch ≠ 0 ∧ 8 ≤ cw ∧ cw ≤ 1024 ∧ 8 ≤ ch ∧ ch ≤ 1024
          then (⟨cw, ch⟩ : Segments) else cur)
      split_ifs with hcnd
      · exact ⟨hcnd.2.2.1, hcnd.2.2.2.1, hcnd.2.2.2.2.1, hcnd.2.2.2.2.2⟩
      · exact hc
  · rcases w with _ | cw <;> rcases h with _ | ch
    · exact Or.inl rfl
    · exact Or.inl rfl
    · exact Or.inl rfl
    · show (if cw ≠ 0 ∧ ch ≠ 0 ∧ 8 ≤ cw ∧ cw ≤ 1024 ∧ 8 ≤ ch ∧ ch ≤ 1024
            then (⟨cw, ch⟩ : Segments) else cur) = cur
          ∨ segInRange (if cw ≠ 0 ∧ ch ≠ 0 ∧ 8 ≤ cw ∧ cw ≤ 1024 ∧ 8 ≤ ch ∧ ch ≤ 1024
            then (⟨cw, ch⟩ : Segments) else cur)
      split_ifs with hcnd
      · exact Or.inr ⟨hcnd.2.2.1, hcnd.2.2.2.1, hcnd.2.2.2.2.1, hcnd.2.2.2.2.2⟩
      · exact Or.inl rfl

/-! Lemmas about the degenerate (collinear) polygon case. -/

lemma visibleB_zeroPlane {α : Type} [LinearOrderedField α] (dir : ClipDir) (v : Vec3 α) :
    visibleB ⟨vzero3, 0⟩ dir v = false := by
  cases dir <;> simp [visibleB, vdot, vzero3]

lemma getD_map_const_false {β : Type} :
    ∀ (vs : List β) (i : Nat), (vs.map fun _ => false).getD i false = false := by
  intro vs
  induction vs with
  | nil => intro i; rfl
  | cons v vs ih =>
    intro i
    cases i with
    | zero => rfl
    | succ i => exact ih i

lemma compactTriangles_allFalse {β : Type} (vs : List β) (m : List (Option Nat))
    (tris : List Tri) :
    compactTriangles (vs.map fun _ => false) m tris = [] := by
  induction tris with
  | nil => rfl
  | cons t ts ih =>
    simp only [compactTriangles, List.filterMap_cons, visAt, getD_map_const_false,
      Bool.false_and] at ih ⊢
    exact ih

lemma applyGeometryClipping_zeroPlane {α : Type} [LinearOrderedField α]
    (g : Geometry α) (dir : ClipDir) :
    applyGeometryClipping g ⟨vzero3, 0⟩ dir = ⟨[], none⟩ := by
  have hfe : visibleB (⟨vzero3, 0⟩ : Plane α) dir = fun _ => false :=
    funext (visibleB_zeroPlane dir)
  have hfst : (compactLoop g.verts (g.verts.map fun _ => false) 0).1 = [] := by
    rw [compactLoop_fst (fun _ => false) g.verts 0]
    exact List.filter_false g.verts
  cases hgi : g.index with
  | some tris =>
    simp [applyGeometryClipping, hfe, hgi, hfst, compactTriangles_allFalse,
      -List.map_const, -List.map_const']
  | none =>
    simp [applyGeometryClipping, hfe, hgi, hfst, -List.map_const, -List.map_const']

lemma threeNormalize_zero : threeNormalize vzero3 = vzero3 := by
  ext <;> simp [threeNormalize, vsmul, vzero3]

lemma calculateClippingPlane_collinear (p0 p1 p2 : Vec3 ℝ) (rest : List (Vec3 ℝ))
    (h : vcross (vsub p1 p0) (vsub p2 p0) = vzero3) :
    calculateClippingPlane (p0 :: p1 :: p2 :: rest) = some ⟨vzero3, 0⟩ := by
  simp only [calculateClippingPlane, h, threeNormalize_zero]
  simp [vdot, vzero3]

/-- C2 counterexample: with a collinear working polygon the solver still
returns a plane (it does not report degeneracy), the clipping invocation
proceeds, and the target layer's geometry is replaced by an empty mesh
instead of being left untouched. -/
theorem collinearPolygon_notAborted_cex :
    (calculateClippingPlane stC2.clippingPolygon).isSome = true
    ∧ (getLayer stC2 LayerName.crust).map (fun layer => layer.state.geometry.verts)
        = some [⟨0, 0, 1⟩]
    ∧ (getLayer (clipLayerWithPolygon stC2 LayerName.crust) LayerName.crust).map
        (fun layer => layer.state.geometry.verts) = some [] := by
  have hcr : vcross (vsub (⟨1, 0, 0⟩ : Vec3 ℝ) ⟨0, 0, 0⟩) (vsub ⟨2, 0, 0⟩ ⟨0, 0, 0⟩)
      = vzero3 := by
    ext <;> simp [vcross, vsub, vzero3]
  have hplane : calculateClippingPlane polyC2 = some ⟨vzero3, 0⟩ :=
    calculateClippingPlane_collinear ⟨0, 0, 0⟩ ⟨1, 0, 0⟩ ⟨2, 0, 0⟩ [] hcr
  have hlen : ¬(stC2.clippingPolygon.length < 3) := by
    show ¬(polyC2.length < 3)
    simp [polyC2]
  refine ⟨?_, rfl, ?_⟩
  · show (calculateClippingPlane polyC2).isSome = true
    rw [hplane]
    rfl
  · show (getLayer (clipLayerWithPolygon stC2 LayerName.crust) LayerName.crust).map
      (fun layer => layer.state.geometry.verts) = some []
    rw [clipLayerWithPolygon, if_neg hlen]
    show (getLayer (match calculateClippingPlane polyC2 with
      | none => stC2
      | some plane => setLayer stC2 LayerName.crust
          ⟨true, clipStep plane stC2.clippingDirection ⟨gC2, none⟩⟩) LayerName.crust).map
      (fun layer => layer.state.geometry.verts) = some []
    rw [hplane]
    show some (applyGeometryClipping gC2 ⟨vzero3, 0⟩ ClipDir.outside).verts = some []
    rw [applyGeometryClipping_zeroPlane]

/-- C2 (amended): the solver reports failure only for polygons with fewer
than three points; for collinear first three points it returns the
degenerate plane with zero normal (the zero cross product normalizes to
itself) and offset `0`, and the geometry-clipping invocation proceeds with
it: every vertex has signed distance `0`, fails both direction tests, and
the mesh is emptied rather than left untouched. -/
theorem collinearPolygon_zeroPlane_empties (p0 p1 p2 : Vec3 ℝ) (rest : List (Vec3 ℝ))
    (g : Geometry ℝ) (dir : ClipDir)
    (h : vcross (vsub p1 p0) (vsub p2 p0) = vzero3) :
    calculateClippingPlane (p0 :: p1 :: p2 :: rest) = some ⟨vzero3, 0⟩
    ∧ applyGeometryClipping g ⟨vzero3, 0⟩ dir = ⟨[], none⟩ :=
  ⟨calculateClippingPlane_collinear p0 p1 p2 rest h, applyGeometryClipping_zeroPlane g dir⟩

/-- Concrete instantiation of the C2 amended theorem. -/
theorem collinearPolygon_zeroPlane_empties_instance :
    vcross (vsub (⟨1, 0, 0⟩ : Vec3 ℝ) ⟨0, 0, 0⟩) (vsub ⟨2, 0, 0⟩ ⟨0, 0, 0⟩) = vzero3
    ∧ calculateClippingPlane polyC2 = some ⟨vzero3, 0⟩
    ∧ applyGeometryClipping gC2 ⟨vzero3, 0⟩ ClipDir.outside = ⟨[], none⟩ := by
  have hcr : vcross (vsub (⟨1, 0, 0⟩ : Vec3 ℝ) ⟨0, 0, 0⟩) (vsub ⟨2, 0, 0⟩ ⟨0, 0, 0⟩)
      = vzero3 := by
    ext <;> simp [vcross, vsub, vzero3]
  exact ⟨hcr,
    (collinearPolygon_zeroPlane_empties ⟨0, 0, 0⟩ ⟨1, 0, 0⟩ ⟨2, 0, 0⟩ [] gC2
      ClipDir.outside hcr).1,
    (collinearPolygon_zeroPlane_empties ⟨0, 0, 0⟩ ⟨1, 0, 0⟩ ⟨2, 0, 0⟩ [] gC2
      ClipDir.outside hcr).2⟩

/-! Lemmas about the layer manager state. -/

lemma getLayer_setLayer_self (st : AppState) (l : LayerName) (layer : Layer) :
    getLayer (setLayer st l layer) l = some layer := by
  cases l <;> rfl

lemma getLayer_setLayer_ne (st : AppState) (layer : Layer) {l l' : LayerName} (h : l ≠ l') :
    getLayer (setLayer st l layer) l' = getLayer st l' := by
  cases l <;> cases l' <;> first | rfl | exact absurd rfl h

lemma setLayer_clippingPolygon (st : AppState) (l : LayerName) (layer : Layer) :
    (setLayer st l layer).clippingPolygon = st.clippingPolygon := by
  cases l <;> rfl

lemma setLayer_clippingDirection (st : AppState) (l : LayerName) (layer : Layer) :
    (setLayer st l layer).clippingDirection = st.clippingDirection := by
  cases l <;> rfl

lemma restoreLayer_getLayer_self (st : AppState) (l : LayerName) :
    getLayer (restoreLayer st l) l
      = (getLayer st l).map fun layer => { layer with state := restoreStep layer.state } := by
  cases hg : getLayer st l with
  | none => simp [restoreLayer, hg]
  | some layer => simp [restoreLayer, hg, getLayer_setLayer_self]

lemma restoreLayer_getLayer_ne (st : AppState) {l l' : LayerName} (h : l ≠ l') :
    getLayer (restoreLayer st l) l' = getLayer st l' := by
  cases hg : getLayer st l with
  | none => simp [restoreLayer, hg]
  | some layer =>
    simp only [restoreLayer, hg]
    exact getLayer_setLayer_ne st _ h

lemma restoreLayer_clippingPolygon (st : AppState) (l : LayerName) :
    (restoreLayer st l).clippingPolygon = st.clippingPolygon := by
  cases hg : getLayer st l with
  | none => simp [restoreLayer, hg]
  | some layer => simp [restoreLayer, hg, setLayer_clippingPolygon]

lemma restoreLayer_clippingDirection (st : AppState) (l : LayerName) :
    (restoreLayer st l).clippingDirection = st.clippingDirection := by
  cases hg : getLayer st l with
  | none => simp [restoreLayer, hg]
  | some layer => simp [restoreLayer, hg, setLayer_clippingDirection]

lemma layerVisible_restoreLayer (st : AppState) (l l' : LayerName) :
    layerVisible (restoreLayer st l) l' = layerVisible st l' := by
  by_cases h : l = l'
  · subst h
    simp only [layerVisible, restoreLayer_getLayer_self]
    cases hg : getLayer st l <;> rfl
  · simp only [layerVisible, restoreLayer_getLayer_ne st h]

lemma calculateClippingPlane_eq_none_iff (poly : List (Vec3 ℝ)) :
    calculateClippingPlane poly = none ↔ poly.length < 3 := by
  rcases poly with _ | ⟨a, _ | ⟨b, _ | ⟨c, rest⟩⟩⟩ <;> simp [calculateClippingPlane]

lemma clipLayer_getLayer_self (st : AppState) (l : LayerName) :
    getLayer (clipLayerWithPolygon st l) l
      = (getLayer st l).map fun layer =>
          match calculateClippingPlane st.clippingPolygon with
          | some plane => { layer with state := clipStep plane st.clippingDirection layer.state }
          | none => layer := by
  by_cases hlen : st.clippingPolygon.length < 3
  · have hp : calculateClippingPlane st.clippingPolygon = none :=
      (calculateClippingPlane_eq_none_iff _).mpr hlen
    simp only [clipLayerWithPolygon, if_pos hlen, hp]
    cases getLayer st l <;> rfl
  · cases hg : getLayer st l with
    | none => simp [clipLayerWithPolygon, if_neg hlen, hg]
    | some layer =>
      cases hp : calculateClippingPlane st.clippingPolygon with
      | none => exact absurd ((calculateClippingPlane_eq_none_iff _).mp hp) hlen
      | some plane =>
        simp [clipLayerWithPolygon, if_neg hlen, hg, hp, getLayer_setLayer_self]

lemma clipLayer_getLayer_ne (st : AppState) {l l' : LayerName} (h : l ≠ l') :
    getLayer (clipLayerWithPolygon st l) l' = getLayer st l' := by
  by_cases hlen : st.clippingPolygon.length < 3
  · simp [clipLayerWithPolygon, if_pos hlen]
  · cases hg : getLayer st l with
    | none => simp [clipLayerWithPolygon, if_neg hlen, hg]
    | some layer =>
      cases hp : calculateClippingPlane st.clippingPolygon with
      | none => simp [clipLayerWithPolygon, if_neg hlen, hg, hp]
      | some plane =>
        simp only [clipLayerWithPolygon, if_neg hlen, hg, hp]
        exact getLayer_setLayer_ne st _ h

lemma clipLayer_clippingPolygon (st : AppState) (l : LayerName) :
    (clipLayerWithPolygon st l).clippingPolygon = st.clippingPolygon := by
  by_cases hlen : st.clippingPolygon.length < 3
  · simp [clipLayerWithPolygon, if_pos hlen]
  · cases hg : getLayer st l with
    | none => simp [clipLayerWithPolygon, if_neg hlen, hg]
    | some layer =>
      cases hp : calculateClippingPlane st.clippingPolygon with
      | none => simp [clipLayerWithPolygon, if_neg hlen, hg, hp]
      | some plane =>
        simp [clipLayerWithPolygon, if_neg hlen, hg, hp, setLayer_clippingPolygon]

lemma clipLayer_clippingDirection (st : AppState) (l : LayerName) :
    (clipLayerWithPolygon st l).clippingDirection = st.clippingDirection := by
  by_cases hlen : st.clippingPolygon.length < 3
  · simp [clipLayerWithPolygon, if_pos hlen]
  · cases hg : getLayer st l with
    | none => simp [clipLayerWithPolygon, if_neg hlen, hg]
    | some layer =>
      cases hp : calculateClippingPlane st.clippingPolygon with
      | none => simp [clipLayerWithPolygon, if_neg hlen, hg, hp]
      | some plane =>
        simp [clipLayerWithPolygon, if_neg hlen, hg, hp, setLayer_clippingDirection]

lemma layerVisible_clipLayer (st : AppState) (l l' : LayerName) :
    layerVisible (clipLayerWithPolygon st l) l' = layerVisible st l' := by
  by_cases h : l = l'
  · subst h
    simp only [layerVisible, clipLayer_getLayer_self]
    cases hg : getLayer st l <;> cases hp : calculateClippingPlane st.clippingPolygon <;>
      simp [hp]
  · simp only [layerVisible, clipLayer_getLayer_ne st h]

lemma getLayer_iteClip_ne (st : AppState) (c : Prop) [Decidable c] {l0 l' : LayerName}
    (h : l0 ≠ l') :
    getLayer (if c then clipLayerWithPolygon st l0 else st) l' = getLayer st l' := by
  by_cases hc : c
  · rw [if_pos hc]
    exact clipLayer_getLayer_ne st h
  · rw [if_neg hc]

lemma iteClip_clippingPolygon (st : AppState) (c : Prop) [Decidable c] (l0 : LayerName) :
    (if c then clipLayerWithPolygon st l0 else st).clippingPolygon = st.clippingPolygon := by
  by_cases hc : c
  · rw [if_pos hc]
    exact clipLayer_clippingPolygon st l0
  · rw [if_neg hc]

lemma iteClip_clippingDirection (st : AppState) (c : Prop) [Decidable c] (l0 : LayerName) :
    (if c then clipLayerWithPolygon st l0 else st).clippingDirection = st.clippingDirection := by
  by_cases hc : c
  · rw [if_pos hc]
    exact clipLayer_clippingDirection st l0
  · rw [if_neg hc]

lemma layerVisible_iteClip (st : AppState) (c : Prop) [Decidable c] (l0 l' : LayerName) :
    layerVisible (if c then clipLayerWithPolygon st l0 else st) l' = layerVisible st l' := by
  by_cases hc : c
  · rw [if_pos hc]
    exact layerVisible_clipLayer st l0 l'
  · rw [if_neg hc]

lemma getLayer_iteClip_self (st : AppState) (l : LayerName) :
    getLayer (if layerVisible st l then clipLayerWithPolygon st l else st) l
      = (getLayer st l).map fun layer =>
          if layer.visible then
            match calculateClippingPlane st.clippingPolygon with
            | some plane => { layer with state := clipStep plane st.clippingDirection layer.state }
            | none => layer
          else layer := by
  by_cases hv : layerVisible st l = true
  · rw [if_pos hv, clipLayer_getLayer_self]
    cases hg : getLayer st l with
    | none => rfl
    | some layer =>
      have hvt : layer.visible = true := by simpa [layerVisible, hg] using hv
      simp [hvt]
  · rw [if_neg hv]
    cases hg : getLayer st l with
    | none => rfl
    | some layer =>
      have hvf : layer.visible = false :=
        Bool.not_eq_true _ ▸ (by simpa [layerVisible, hg] using hv)
      simp [hg, hvf]

lemma getLayer_reapply (st : AppState) (l : LayerName) :
    getLayer (reapplyClippingToAllLayers st) l
      = (getLayer st l).map (directionChangeLayerResult st st.clippingDirection) := by
  simp only [reapplyClippingToAllLayers]
  set r3 := restoreLayer (restoreLayer (restoreLayer st LayerName.crust) LayerName.mantle)
    LayerName.core with hr3
  have h3get_c : getLayer r3 LayerName.crust
      = (getLayer st LayerName.crust).map
          fun layer => { layer with state := restoreStep layer.state } := by
    rw [hr3, restoreLayer_getLayer_ne _ (by decide), restoreLayer_getLayer_ne _ (by decide),
      restoreLayer_getLayer_self]
  have h3get_m : getLayer r3 LayerName.mantle
      = (getLayer st LayerName.mantle).map
          fun layer => { layer with state := restoreStep layer.state } := by
    rw [hr3, restoreLayer_getLayer_ne _ (by decide), restoreLayer_getLayer_self,
      restoreLayer_getLayer_ne _ (by decide)]
  have h3get_k : getLayer r3 LayerName.core
      = (getLayer st LayerName.core).map
          fun layer => { layer with state := restoreStep layer.state } := by
    rw [hr3, restoreLayer_getLayer_self, restoreLayer_getLayer_ne _ (by decide),
      restoreLayer_getLayer_ne _ (by decide)]
  have h3poly : r3.clippingPolygon = st.clippingPolygon := by
    rw [hr3, restoreLayer_clippingPolygon, restoreLayer_clippingPolygon,
      restoreLayer_clippingPolygon]
  have h3dir : r3.clippingDirection = st.clippingDirection := by
    rw [hr3, restoreLayer_clippingDirection, restoreLayer_clippingDirection,
      restoreLayer_clippingDirection]
  set st4 := if layerVisible r3 LayerName.crust then clipLayerWithPolygon r3 LayerName.crust
    else r3 with hst4
  have h4poly : st4.clippingPolygon = st.clippingPolygon := by
    rw [hst4, iteClip_clippingPolygon, h3poly]
  have h4dir : st4.clippingDirection = st.clippingDirection := by
    rw [hst4, iteClip_clippingDirection, h3dir]
  set st5 := if layerVisible st4 LayerName.mantle then clipLayerWithPolygon st4 LayerName.mantle
    else st4 with hst5
  have h5poly : st5.clippingPolygon = st.clippingPolygon := by
    rw [hst5, iteClip_clippingPolygon, h4poly]
  have h5dir : st5.clippingDirection = st.clippingDirection := by
    rw [hst5, iteClip_clippingDirection, h4dir]
  cases l with
  | crust =>
    rw [getLayer_iteClip_ne st5 _ (by decide : LayerName.core ≠ LayerName.crust)]
    rw [hst5, getLayer_iteClip_ne st4 _ (by decide : LayerName.mantle ≠ LayerName.crust)]
    rw [hst4, getLayer_iteClip_self r3 LayerName.crust]
    simp only [h3poly, h3dir]
    rw [h3get_c, Option.map_map]
    cases getLayer st LayerName.crust <;> rfl
  | mantle =>
    rw [getLayer_iteClip_ne st5 _ (by decide : LayerName.core ≠ LayerName.mantle)]
    rw [hst5, getLayer_iteClip_self st4 LayerName.mantle]
    simp only [h4poly, h4dir]
    rw [hst4, getLayer_iteClip_ne r3 _ (by decide : LayerName.crust ≠ LayerName.mantle)]
    rw [h3get_m, Option.map_map]
    cases getLayer st LayerName.mantle <;> rfl
  | core =>
    rw [getLayer_iteClip_self st5 LayerName.core]
    simp only [h5poly, h5dir]
    rw [hst5, getLayer_iteClip_ne st4 _ (by decide : LayerName.mantle ≠ LayerName.core)]
    rw [hst4, getLayer_iteClip_ne r3 _ (by decide : LayerName.crust ≠ LayerName.core)]
    rw [h3get_k, Option.map_map]
    cases getLayer st LayerName.core <;> rfl

/-- C8 counterexample: a visible mantle layer that is NOT enrolled for
clipping (`clipMantle = false`) is nonetheless re-clipped by the
direction-change handler — its one-vertex mesh is emptied. -/
theorem directionChange_cex :
    st8.clipMantle = false
    ∧ (getLayer st8 LayerName.mantle).map (fun layer => layer.state.geometry.verts.length)
        = some 1
    ∧ (getLayer (onClippingDirectionChange st8 ClipDir.outside) LayerName.mantle).map
        (fun layer => layer.state.geometry.verts.length) = some 0 := by
  have hplane8 : calculateClippingPlane poly8 = some ⟨⟨0, 0, 1⟩, 0⟩ := by
    have hcr : vcross (vsub (⟨1, 0, 0⟩ : Vec3 ℝ) ⟨0, 0, 0⟩) (vsub ⟨0, 1, 0⟩ ⟨0, 0, 0⟩)
        = ⟨0, 0, 1⟩ := by
      ext <;> simp [vcross, vsub]
    show calculateClippingPlane
      ((⟨0, 0, 0⟩ : Vec3 ℝ) :: ⟨1, 0, 0⟩ :: ⟨0, 1, 0⟩ :: []) = some ⟨⟨0, 0, 1⟩, 0⟩
    simp only [calculateClippingPlane, hcr]
    have hn : norm3 (⟨0, 0, 1⟩ : Vec3 ℝ) = 1 := by
      unfold norm3
      norm_num
    simp [threeNormalize, hn, vsmul, vdot, Plane.mk.injEq, Vec3.mk.injEq]
  have hv8 : visibleB (⟨⟨0, 0, 1⟩, 0⟩ : Plane ℝ) ClipDir.outside ⟨0, 0, -1⟩ = false :=
    decide_eq_false (by norm_num [vdot])
  have hclip8 : applyGeometryClipping g8 ⟨⟨0, 0, 1⟩, 0⟩ ClipDir.outside = ⟨[], none⟩ := by
    simp [applyGeometryClipping, g8, hv8, compactLoop]
  refine ⟨rfl, rfl, ?_⟩
  unfold onClippingDirectionChange
  rw [getLayer_reapply]
  simp [getLayer, st8, directionChangeLayerResult, restoreStep, clipStep, hplane8, hclip8]

/-- C8 (amended): on a clipping-direction change every layer is first
restored from its pristine snapshot and clipping is then re-applied with
the new direction to every existing, visible layer — regardless of its
clip-enrollment checkbox; the enrollment flags have no effect on the
resulting layer states. -/
theorem directionChange_restoresAllThenClipsVisible (st : AppState) (v : ClipDir) :
    (∀ l : LayerName, getLayer (onClippingDirectionChange st v) l
        = (getLayer st l).map (directionChangeLayerResult st v))
    ∧ (∀ (b1 b2 b3 : Bool) (l : LayerName),
        getLayer (onClippingDirectionChange
          { st with clipCrust := b1, clipMantle := b2, clipCore := b3 } v) l
        = getLayer (onClippingDirectionChange st v) l) := by
  constructor
  · intro l
    unfold onClippingDirectionChange
    rw [getLayer_reapply]
    cases l <;> rfl
  · intro b1 b2 b3 l
    unfold onClippingDirectionChange
    rw [getLayer_reapply, getLayer_reapply]
    cases l <;> rfl

/-- Concrete instantiation of the C9 amended theorem. -/
theorem segments_clampOrIgnore_instance :
    segInRange (⟨256, 128⟩ : Segments)
    ∧ segInRange (readInitialSegments (some 5000) none)
    ∧ segInRange (updateSegmentsIfValid ⟨256, 128⟩ (some 2000) (some 100)) := by
  refine ⟨by decide, ?_, ?_⟩
  · exact (segments_clampOrIgnore (some 5000) none ⟨256, 128⟩).1
  · exact (segments_clampOrIgnore (some 2000) (some 100) ⟨256, 128⟩).2.1 (by decide)

end WebgpuGlobe
